import Mathlib

/-!
Shallow embedding of `transformer_solver/model.py` (`PocatModel.forward`), the
two-phase autoregressive decoding rollout of the POCAT solver.

Modelling conventions:
* Tensors with leading batch dimension `M` are functions `Fin M → _`
  (a `TensorDict` row family).  Node dimension is `Fin N`.
* Floating point scores are embedded as real numbers (exact arithmetic).
* The environment (`PocatEnv`, an external collaborator per the spec) is an
  abstract record of the functions the rollout consumes: `done`,
  `decoding_phase`, `trajectory_head`, `get_action_mask`, `step`.
* The continuous network computations (encoder output, attention projections,
  GRU cell) enter the rollout only through per-trajectory score/update
  functions; they are abstracted as a `TrajPolicy` record whose fields
  correspond to lines 137, 155-160, 178-183 and 206-208 of the source.
* Stochastic sampling (`Categorical(probs).sample()`) is modelled by
  inverse-CDF selection against an externally supplied uniform draw stream.
* The Python `while` loop is embedded with explicit fuel; running out of fuel
  is an explicit error, as is the `NameError` raised when `log_prob_val` is
  read before any assignment (decoding phase outside {0, 1} on the first
  iteration).
-/

/-- Errors a rollout can hit: the Python `NameError` on `log_prob_val`
(phase outside {0,1} before any real step), or fuel exhaustion of the
embedded `while` loop. -/
inductive RolloutErr where
  | nameErr
  | outOfFuel
  deriving DecidableEq

/-- The large negative sentinel `-1e9` used by `masked_fill` in the source
(lines 162 and 186). -/
noncomputable def negSentinel : ℝ := -(10 ^ 9)

/-- `F.log_softmax(s)` over the node dimension: `s i - log (Σ j, exp (s j))`
(lines 164 and 188). -/
noncomputable def logSoftmax {N : ℕ} (s : Fin N → ℝ) (i : Fin N) : ℝ :=
  s i - Real.log (∑ j, Real.exp (s j))

/-- `scores.masked_fill(~m, -1e9)`: keep `s i` where the mask is `true`, put
the sentinel where it is `false` (lines 162 and 186). -/
noncomputable def maskedFill {N : ℕ} (s : Fin N → ℝ) (m : Fin N → Bool) (i : Fin N) : ℝ :=
  if m i then s i else negSentinel

/-- `argmax(dim=-1)` with first-occurrence tie break: the least index
attaining the maximum (lines 171 and 194). -/
noncomputable def argmaxIdx {N : ℕ} [NeZero N] (s : Fin N → ℝ) : Fin N :=
  if h : ∃ i : Fin N, (∀ j, s j ≤ s i) ∧ (∀ j, s j = s i → i ≤ j) then h.choose
  else ⟨0, Nat.pos_of_ne_zero (NeZero.ne N)⟩

/-- Cumulative distribution of a categorical probability vector up to and
including index `i`. -/
noncomputable def catCdf {N : ℕ} (p : Fin N → ℝ) (i : Fin N) : ℝ :=
  ∑ j ∈ Finset.Iic i, p j

/-- `Categorical(probs=p).sample()` modelled by inverse-CDF selection at the
uniform draw `u`: the least index whose cumulative probability exceeds `u`
(lines 169 and 192). -/
noncomputable def sampleCat {N : ℕ} [NeZero N] (p : Fin N → ℝ) (u : ℝ) : Fin N :=
  if h : ∃ i : Fin N, u < catCdf p i ∧ ∀ j, u < catCdf p j → i ≤ j then h.choose
  else ⟨0, Nat.pos_of_ne_zero (NeZero.ne N)⟩

/-- Action selection from a log-probability row: the source branches on the
string `decode_type`, sampling from `Categorical(probs=logp.exp())` when it
equals `"sampling"` and taking the arg-max otherwise
(lines 167-171 and 191-194). -/
noncomputable def selectIdx {N : ℕ} [NeZero N] (decodeType : String)
    (logp : Fin N → ℝ) (u : ℝ) : Fin N :=
  if decodeType = "sampling" then sampleCat (fun i => Real.exp (logp i)) u
  else argmaxIdx logp

/-- The environment interface consumed by `PocatModel.forward`: per-row
`done`, `decoding_phase`, `trajectory_head` fields, a full-state action mask
of shape `(M, N, N)`, and the `step` function returning the next state and
the reward tensor. -/
structure EnvApi (τ : Type) (M N : ℕ) where
  done : τ → Bool
  decodingPhase : τ → ℤ
  trajectoryHead : τ → Fin N
  actionMask : (Fin M → τ) → Fin M → Fin N → Fin N → Bool
  step : (Fin M → τ) → (Fin M → Fin N × Fin N) → (Fin M → τ) × (Fin M → ℝ)

/-- The per-trajectory closures through which the network weights and the
(episode-constant) encoded node embeddings enter the rollout:
`initCtx` is the mean context of line 137, `loadScores` the phase-0 scores of
lines 155-160 (a function of the state row through `main_tree_mask`),
`parentScores` the phase-1 scores of lines 178-183 (a function of the running
context and the trajectory head), and `gru` the context-GRU update of
lines 206-208. -/
structure TrajPolicy (τ C : Type) (N : ℕ) where
  initCtx : C
  loadScores : τ → Fin N → ℝ
  parentScores : C → Fin N → Fin N → ℝ
  gru : Fin N × Fin N → C → C

/-- The mutable locals of the decoding loop: current state `td`, running
context, the Python variables `action` and `log_prob_val` (the latter is
`none` until its first assignment), the `actions` and `log_probs` lists in
chronological order, and the reward of the most recent `env.step` output. -/
structure LoopState (τ C : Type) (M N : ℕ) where
  td : Fin M → τ
  context : Fin M → C
  lastAction : Fin M → Fin N × Fin N
  lastLogProb : Option (Fin M → ℝ)
  actions : List (Fin M → Fin N × Fin N)
  logProbs : List (Fin M → ℝ)
  lastReward : Fin M → ℝ

/-- The mask slice the source applies before the phase-1 softmax
(line 185): `mask[arange(M), :, trajectory_head]`, i.e. row `b` of the slice
at candidate `j` reads the `(child := j, parent := head b)` entry. -/
def phase1MaskSlice {M N : ℕ} (mask : Fin M → Fin N → Fin N → Bool)
    (head : Fin M → Fin N) (b : Fin M) (j : Fin N) : Bool :=
  mask b j (head b)

/-- The slice the spec describes for phase 1: the legal parents of the
current head under the `(child, parent)`-indexed mask convention, i.e. the
entries whose child coordinate is the head, `mask[arange(M), head, :]`.
Stated from the spec's words for comparison with `phase1MaskSlice`. -/
def specLegalParentSlice {M N : ℕ} (mask : Fin M → Fin N → Fin N → Bool)
    (head : Fin M → Fin N) (b : Fin M) (j : Fin N) : Bool :=
  mask b (head b) j

/-- Phase-0 log-probabilities (lines 155-164): score the load candidates,
mask with `mask[:, :, 0]`, log-softmax. -/
noncomputable def phase0LogProbs {τ C : Type} {M N : ℕ} [NeZero N]
    (env : EnvApi τ M N) (pol : Fin M → TrajPolicy τ C N)
    (td : Fin M → τ) (b : Fin M) : Fin N → ℝ :=
  logSoftmax (maskedFill ((pol b).loadScores (td b)) (fun j => env.actionMask td b j 0))

/-- Phase-1 log-probabilities (lines 177-188): score the parent candidates
from the running context and the head embedding, mask with
`mask[arange, :, head]`, log-softmax. -/
noncomputable def phase1LogProbs {τ C : Type} {M N : ℕ} [NeZero N]
    (env : EnvApi τ M N) (pol : Fin M → TrajPolicy τ C N)
    (td : Fin M → τ) (ctx : Fin M → C) (b : Fin M) : Fin N → ℝ :=
  logSoftmax (maskedFill ((pol b).parentScores (ctx b) (env.trajectoryHead (td b)))
    (phase1MaskSlice (env.actionMask td) (fun k => env.trajectoryHead (td k)) b))

/-- The loop epilogue shared by every iteration (lines 199-208): submit the
action to `env.step`, append the action and its log-probability to the logs,
update the running context through the GRU with the (child, parent)
embedding pair of the committed action, and remember the returned reward. -/
noncomputable def commitStep {τ C : Type} {M N : ℕ}
    (env : EnvApi τ M N) (pol : Fin M → TrajPolicy τ C N)
    (ls : LoopState τ C M N) (action : Fin M → Fin N × Fin N)
    (logProbVal : Fin M → ℝ) : LoopState τ C M N :=
  let out := env.step ls.td action
  { td := out.1
    context := fun b => (pol b).gru (action b) (ls.context b)
    lastAction := action
    lastLogProb := some logProbVal
    actions := ls.actions ++ [action]
    logProbs := ls.logProbs ++ [logProbVal]
    lastReward := out.2 }

/-- One iteration of the decoding loop (lines 150-208).  The phase is read
from trajectory 0 only (line 152).  Phases other than 0 and 1 fall through
both branches: the stale `action` is re-submitted, and reading the stale
`log_prob_val` raises a `NameError` if it was never assigned. -/
noncomputable def loopBody {τ C : Type} {M N : ℕ} [NeZero M] [NeZero N]
    (env : EnvApi τ M N) (pol : Fin M → TrajPolicy τ C N) (decodeType : String)
    (u : Fin M → ℝ) (ls : LoopState τ C M N) :
    Except RolloutErr (LoopState τ C M N) :=
  let phase := env.decodingPhase (ls.td 0)
  if phase = 0 then
    let logp := phase0LogProbs env pol ls.td
    let sel := fun b => selectIdx decodeType (logp b) (u b)
    Except.ok (commitStep env pol ls (fun b => (sel b, (0 : Fin N)))
      (fun b => logp b (sel b)))
  else if phase = 1 then
    let logp := phase1LogProbs env pol ls.td ls.context
    let sel := fun b => selectIdx decodeType (logp b) (u b)
    Except.ok (commitStep env pol ls (fun b => (env.trajectoryHead (ls.td b), sel b))
      (fun b => logp b (sel b)))
  else
    match ls.lastLogProb with
    | none => Except.error RolloutErr.nameErr
    | some lp => Except.ok (commitStep env pol ls ls.lastAction lp)

/-- The `while not td["done"].all()` loop with explicit fuel; `t` counts the
iterations to index the uniform draw stream. -/
noncomputable def rolloutLoop {τ C : Type} {M N : ℕ} [NeZero M] [NeZero N]
    (env : EnvApi τ M N) (pol : Fin M → TrajPolicy τ C N) (decodeType : String)
    (rng : ℕ → Fin M → ℝ) : ℕ → ℕ → LoopState τ C M N →
    Except RolloutErr (LoopState τ C M N)
  | 0, _, ls =>
    if ∀ k, env.done (ls.td k) = true then Except.ok ls
    else Except.error RolloutErr.outOfFuel
  | fuel + 1, t, ls =>
    if ∀ k, env.done (ls.td k) = true then Except.ok ls
    else (loopBody env pol decodeType (rng t) ls).bind
        (rolloutLoop env pol decodeType rng fuel (t + 1))

/-- Original problem instance of a replicated trajectory: replica `k` of the
`B * S` trajectories carries instance `k % B`. -/
def instanceIdx {B S : ℕ} (k : Fin (B * S)) : Fin B :=
  ⟨k.1 % B, Nat.mod_lt _ (Nat.pos_of_ne_zero (fun h => absurd k.2 (by simp [h])))⟩

/-- Start-node slot of a replicated trajectory: `start_nodes_idx.repeat(B)`
(line 140) places start index `k % S` at trajectory `k`. -/
def startOf {B S : ℕ} (k : Fin (B * S)) : Fin S :=
  ⟨k.1 % S, Nat.mod_lt _ (Nat.pos_of_ne_zero (fun h => absurd k.2 (by simp [h])))⟩

/-- Modelled from the spec: `batchify` from `common/utils/common.py` is not
part of the sources; the spec says every per-trajectory tensor is "replicated
identically" so that "the effective batch size equals base_batch_size ×
num_starts".  We model replication as tiling: replica `k` of `B * S` holds
the row of original instance `k % B`. -/
def batchify {α : Type} {B : ℕ} (S : ℕ) (x : Fin B → α) (k : Fin (B * S)) : α :=
  x (instanceIdx k)

/-- The initial start action committed before the loop (lines 140-142):
child `start_nodes_idx.repeat(batch_size)[k] = startIdx (k % S)`, parent
placeholder 0. -/
def initialAction {B S N : ℕ} [NeZero N] (startIdx : Fin S → Fin N)
    (k : Fin (B * S)) : Fin N × Fin N :=
  (startIdx (startOf k), (0 : Fin N))

/-- The loop state right after the pre-loop work of lines 133-148: replicate
the state and the per-trajectory policy closures, initialize the context,
commit the start action through one `env.step` call, and record it with
log-probability 0. -/
noncomputable def initLoopState {τ C : Type} {B S N : ℕ} [NeZero N]
    (env : EnvApi τ (B * S) N) (basePol : Fin B → TrajPolicy τ C N)
    (baseTd : Fin B → τ) (startIdx : Fin S → Fin N) :
    LoopState τ C (B * S) N :=
  let tdRep := batchify S baseTd
  let a0 := initialAction startIdx
  let out := env.step tdRep a0
  { td := out.1
    context := fun k => (batchify S basePol k).initCtx
    lastAction := a0
    lastLogProb := none
    actions := [a0]
    logProbs := [fun _ => (0 : ℝ)]
    lastReward := out.2 }

/-- The rollout up to loop exit: the final values of the loop locals. -/
noncomputable def forwardState {τ C : Type} {B S N : ℕ} [NeZero (B * S)] [NeZero N]
    (env : EnvApi τ (B * S) N) (basePol : Fin B → TrajPolicy τ C N)
    (baseTd : Fin B → τ) (startIdx : Fin S → Fin N) (decodeType : String)
    (rng : ℕ → Fin (B * S) → ℝ) (fuel : ℕ) :
    Except RolloutErr (LoopState τ C (B * S) N) :=
  rolloutLoop env (batchify S basePol) decodeType rng fuel 0
    (initLoopState env basePol baseTd startIdx)

/-- `torch.stack(log_probs, 1).sum(1)`: the per-trajectory sum of the
recorded per-step rows. -/
def stackSum {M : ℕ} (l : List (Fin M → ℝ)) : Fin M → ℝ :=
  fun k => (l.map (fun f => f k)).sum

/-- The dictionary returned by `forward` (lines 212-216). -/
structure ForwardResult (M N : ℕ) where
  reward : Fin M → ℝ
  logLikelihood : Fin M → ℝ
  actions : List (Fin M → Fin N × Fin N)

/-- `PocatModel.forward` (lines 127-216): run the rollout and assemble the
result record, with the source's empty-list fallbacks for `log_likelihood`
and `actions`. -/
noncomputable def forward {τ C : Type} {B S N : ℕ} [NeZero (B * S)] [NeZero N]
    (env : EnvApi τ (B * S) N) (basePol : Fin B → TrajPolicy τ C N)
    (baseTd : Fin B → τ) (startIdx : Fin S → Fin N) (decodeType : String)
    (rng : ℕ → Fin (B * S) → ℝ) (fuel : ℕ) :
    Except RolloutErr (ForwardResult (B * S) N) :=
  (forwardState env basePol baseTd startIdx decodeType rng fuel).map fun ls =>
    { reward := ls.lastReward
      logLikelihood := if ls.logProbs.isEmpty then fun _ => 0 else stackSum ls.logProbs
      actions := if ls.actions.isEmpty then [] else ls.actions }

/-! Concrete instances used to exercise the definitions. -/

/-- A concrete `(batch = 1, N = 2)` action mask whose only legal pair is
`(child 0, parent 1)`. -/
def c1Mask : Fin 1 → Fin 2 → Fin 2 → Bool :=
  fun _ => ![![false, true], ![false, false]]

/-- A concrete trajectory-head assignment: the head of trajectory 0 is
node 0. -/
def c1Head : Fin 1 → Fin 2 := fun _ => 0

/-- A concrete phase mask row with node 0 illegal and node 1 legal. -/
def c2MaskCex : Fin 2 → Bool := ![false, true]

/-- All-zero raw scores for two nodes. -/
noncomputable def c2ScoresCex : Fin 2 → ℝ := fun _ => 0

/-- A uniform draw landing strictly inside the probability mass that the
finite `-1e9` sentinel leaves on the masked node 0. -/
noncomputable def c2Draw : ℝ :=
  Real.exp (logSoftmax (maskedFill c2ScoresCex c2MaskCex) 0) / 2

/-- Concrete raw scores `[0, 1]` for two nodes. -/
noncomputable def c2ScoresWit : Fin 2 → ℝ := ![0, 1]

/-- A concrete phase mask row with node 0 legal and node 1 illegal. -/
def c3Mask : Fin 2 → Bool := ![true, false]

/-- All-zero raw scores for two nodes. -/
noncomputable def c3Scores : Fin 2 → ℝ := fun _ => 0

instance : NeZero (1 * 1) := ⟨Nat.one_ne_zero⟩

/-- A trivial single-trajectory environment that is immediately done. -/
def trivEnv : EnvApi Unit (1 * 1) 1 where
  done := fun _ => true
  decodingPhase := fun _ => 0
  trajectoryHead := fun _ => 0
  actionMask := fun _ _ _ _ => true
  step := fun td _ => (td, fun _ => 0)

/-- A single-trajectory environment that reports decoding phase 2, outside
the dispatched phases. -/
def phase2Env : EnvApi Unit (1 * 1) 1 where
  done := fun _ => false
  decodingPhase := fun _ => 2
  trajectoryHead := fun _ => 0
  actionMask := fun _ _ _ _ => true
  step := fun td _ => (td, fun _ => 0)

/-- A trivial per-instance policy closure with constant scores. -/
def trivPol : Fin 1 → TrajPolicy Unit Unit 1 :=
  fun _ => { initCtx := (), loadScores := fun _ _ => 0,
             parentScores := fun _ _ _ => 0, gru := fun _ _ => () }

/-- The single-instance base state. -/
def trivTd : Fin 1 → Unit := fun _ => ()

/-- One start node: node 0. -/
def trivStart : Fin 1 → Fin 1 := fun _ => 0

/-- A constant uniform-draw stream. -/
noncomputable def trivRng : ℕ → Fin (1 * 1) → ℝ := fun _ _ => 0

/-- A second, different uniform-draw stream. -/
noncomputable def trivRng2 : ℕ → Fin (1 * 1) → ℝ := fun _ _ => 1

/-- The result record produced by a rollout on `trivEnv` that is done
immediately after the start step. -/
noncomputable def trivResult : ForwardResult (1 * 1) 1 :=
  { reward := fun _ => 0
    logLikelihood := stackSum [fun _ => (0 : ℝ)]
    actions := [initialAction trivStart] }

/-! Basic properties of the selection primitives. -/

theorem exists_first_argmax {N : ℕ} [NeZero N] (s : Fin N → ℝ) :
    ∃ i : Fin N, (∀ j, s j ≤ s i) ∧ (∀ j, s j = s i → i ≤ j) := by
  haveI : Nonempty (Fin N) := ⟨⟨0, Nat.pos_of_ne_zero (NeZero.ne N)⟩⟩
  obtain ⟨i₀, hi₀⟩ := Finite.exists_max s
  classical
  have hTne : (Finset.univ.filter fun j => s i₀ ≤ s j).Nonempty := ⟨i₀, by simp⟩
  refine ⟨(Finset.univ.filter fun j => s i₀ ≤ s j).min' hTne, ?_, ?_⟩
  · intro j
    have hmem := Finset.min'_mem (Finset.univ.filter fun j => s i₀ ≤ s j) hTne
    exact le_trans (hi₀ j) (Finset.mem_filter.mp hmem).2
  · intro j hj
    apply Finset.min'_le
    rw [Finset.mem_filter]
    have hmem := Finset.min'_mem (Finset.univ.filter fun j => s i₀ ≤ s j) hTne
    exact ⟨Finset.mem_univ _, hj ▸ (Finset.mem_filter.mp hmem).2⟩

theorem argmaxIdx_spec {N : ℕ} [NeZero N] (s : Fin N → ℝ) :
    (∀ j, s j ≤ s (argmaxIdx s)) ∧ (∀ j, s j = s (argmaxIdx s) → argmaxIdx s ≤ j) := by
  rw [argmaxIdx, dif_pos (exists_first_argmax s)]
  exact (exists_first_argmax s).choose_spec

theorem argmaxIdx_eq {N : ℕ} [NeZero N] {s : Fin N → ℝ} {i : Fin N}
    (hmax : ∀ j, s j ≤ s i) (hfirst : ∀ j, s j = s i → i ≤ j) :
    argmaxIdx s = i := by
  obtain ⟨h1, h2⟩ := argmaxIdx_spec s
  have he : s (argmaxIdx s) = s i := le_antisymm (hmax _) (h1 i)
  exact le_antisymm (h2 i he.symm) (hfirst _ he)

theorem argmaxIdx_sub_const {N : ℕ} [NeZero N] (s : Fin N → ℝ) (c : ℝ) :
    argmaxIdx (fun i => s i - c) = argmaxIdx s := by
  obtain ⟨h1, h2⟩ := argmaxIdx_spec s
  apply argmaxIdx_eq
  · intro j
    exact sub_le_sub_right (h1 j) c
  · intro j hj
    exact h2 j (by linarith)

theorem argmaxIdx_logSoftmax {N : ℕ} [NeZero N] (s : Fin N → ℝ) :
    argmaxIdx (logSoftmax s) = argmaxIdx s := by
  have h : logSoftmax s = fun i => s i - Real.log (∑ j, Real.exp (s j)) := rfl
  rw [h, argmaxIdx_sub_const]

theorem sampleCat_eq {N : ℕ} [NeZero N] {p : Fin N → ℝ} {u : ℝ} {i : Fin N}
    (hi : u < catCdf p i) (hmin : ∀ j, u < catCdf p j → i ≤ j) :
    sampleCat p u = i := by
  have hex : ∃ i : Fin N, u < catCdf p i ∧ ∀ j, u < catCdf p j → i ≤ j := ⟨i, hi, hmin⟩
  rw [sampleCat, dif_pos hex]
  obtain ⟨h1, h2⟩ := hex.choose_spec
  exact le_antisymm (h2 i hi) (hmin _ h1)

theorem selectIdx_of_ne_sampling {N : ℕ} [NeZero N] {decodeType : String}
    (h : decodeType ≠ "sampling") (logp : Fin N → ℝ) (u : ℝ) :
    selectIdx decodeType logp u = argmaxIdx logp := by
  rw [selectIdx, if_neg h]

theorem sum_exp_pos {N : ℕ} [NeZero N] (s : Fin N → ℝ) :
    0 < ∑ j, Real.exp (s j) :=
  Finset.sum_pos (fun _ _ => Real.exp_pos _)
    ⟨⟨0, Nat.pos_of_ne_zero (NeZero.ne N)⟩, Finset.mem_univ _⟩

theorem exp_logSoftmax {N : ℕ} [NeZero N] (s : Fin N → ℝ) (i : Fin N) :
    Real.exp (logSoftmax s i) = Real.exp (s i) / ∑ j, Real.exp (s j) := by
  rw [logSoftmax, Real.exp_sub, Real.exp_log (sum_exp_pos s)]

theorem logSoftmax_nonpos {N : ℕ} [NeZero N] (s : Fin N → ℝ) (i : Fin N) :
    logSoftmax s i ≤ 0 := by
  rw [logSoftmax, sub_nonpos, Real.le_log_iff_exp_le (sum_exp_pos s)]
  exact Finset.single_le_sum (fun j _ => (Real.exp_pos (s j)).le) (Finset.mem_univ i)

theorem sum_exp_logSoftmax {N : ℕ} [NeZero N] (s : Fin N → ℝ) :
    ∑ i, Real.exp (logSoftmax s i) = 1 := by
  calc ∑ i, Real.exp (logSoftmax s i)
      = ∑ i, Real.exp (s i) / ∑ j, Real.exp (s j) :=
        Finset.sum_congr rfl fun i _ => exp_logSoftmax s i
    _ = (∑ i, Real.exp (s i)) / ∑ j, Real.exp (s j) := by rw [Finset.sum_div]
    _ = 1 := div_self (sum_exp_pos s).ne'

theorem maskedFill_of_true {N : ℕ} {s : Fin N → ℝ} {m : Fin N → Bool} {i : Fin N}
    (h : m i = true) : maskedFill s m i = s i := by
  rw [maskedFill, if_pos h]

theorem maskedFill_of_false {N : ℕ} {s : Fin N → ℝ} {m : Fin N → Bool} {i : Fin N}
    (h : m i = false) : maskedFill s m i = negSentinel := by
  rw [maskedFill, if_neg (by simp [h])]

/-! Structural properties of the decoding loop. -/

theorem commitStep_actions {τ C : Type} {M N : ℕ}
    (env : EnvApi τ M N) (pol : Fin M → TrajPolicy τ C N)
    (ls : LoopState τ C M N) (a : Fin M → Fin N × Fin N) (lp : Fin M → ℝ) :
    (commitStep env pol ls a lp).actions = ls.actions ++ [a] := rfl

theorem commitStep_logProbs {τ C : Type} {M N : ℕ}
    (env : EnvApi τ M N) (pol : Fin M → TrajPolicy τ C N)
    (ls : LoopState τ C M N) (a : Fin M → Fin N × Fin N) (lp : Fin M → ℝ) :
    (commitStep env pol ls a lp).logProbs = ls.logProbs ++ [lp] := rfl

theorem loopBody_shape {τ C : Type} {M N : ℕ} [NeZero M] [NeZero N]
    {env : EnvApi τ M N} {pol : Fin M → TrajPolicy τ C N} {decodeType : String}
    {u : Fin M → ℝ} {ls ls' : LoopState τ C M N}
    (h : loopBody env pol decodeType u ls = Except.ok ls') :
    ∃ a lp, ls' = commitStep env pol ls a lp := by
  rw [loopBody] at h
  split_ifs at h with h0 h1
  · exact ⟨_, _, (Except.ok.inj h).symm⟩
  · exact ⟨_, _, (Except.ok.inj h).symm⟩
  · cases hlp : ls.lastLogProb with
    | none => rw [hlp] at h; cases h
    | some lp => rw [hlp] at h; exact ⟨_, _, (Except.ok.inj h).symm⟩

theorem rolloutLoop_trace {τ C : Type} {M N : ℕ} [NeZero M] [NeZero N]
    (env : EnvApi τ M N) (pol : Fin M → TrajPolicy τ C N) (decodeType : String)
    (rng : ℕ → Fin M → ℝ) :
    ∀ (fuel t : ℕ) (ls ls' : LoopState τ C M N),
      rolloutLoop env pol decodeType rng fuel t ls = Except.ok ls' →
      ∃ sa sl, sa.length = sl.length ∧
        ls'.actions = ls.actions ++ sa ∧ ls'.logProbs = ls.logProbs ++ sl := by
  intro fuel
  induction fuel with
  | zero =>
    intro t ls ls' h
    rw [rolloutLoop] at h
    split_ifs at h with hdone
    exact ⟨[], [], rfl, by simp [(Except.ok.inj h).symm], by simp [(Except.ok.inj h).symm]⟩
  | succ fuel ih =>
    intro t ls ls' h
    rw [rolloutLoop] at h
    split_ifs at h with hdone
    · exact ⟨[], [], rfl, by simp [(Except.ok.inj h).symm], by simp [(Except.ok.inj h).symm]⟩
    · cases hb : loopBody env pol decodeType (rng t) ls with
      | error e => rw [hb] at h; cases h
      | ok ls₁ =>
        rw [hb] at h
        obtain ⟨a, lp, hls₁⟩ := loopBody_shape hb
        obtain ⟨sa, sl, hlen, ha, hl⟩ := ih (t + 1) ls₁ ls' h
        refine ⟨a :: sa, lp :: sl, by simp [hlen], ?_, ?_⟩
        · rw [ha, hls₁, commitStep_actions]; simp
        · rw [hl, hls₁, commitStep_logProbs]; simp

theorem initLoopState_actions {τ C : Type} {B S N : ℕ} [NeZero N]
    (env : EnvApi τ (B * S) N) (basePol : Fin B → TrajPolicy τ C N)
    (baseTd : Fin B → τ) (startIdx : Fin S → Fin N) :
    (initLoopState env basePol baseTd startIdx).actions = [initialAction startIdx] := rfl

theorem initLoopState_logProbs {τ C : Type} {B S N : ℕ} [NeZero N]
    (env : EnvApi τ (B * S) N) (basePol : Fin B → TrajPolicy τ C N)
    (baseTd : Fin B → τ) (startIdx : Fin S → Fin N) :
    (initLoopState env basePol baseTd startIdx).logProbs = [fun _ => (0 : ℝ)] := rfl

theorem forwardState_trace {τ C : Type} {B S N : ℕ} [NeZero (B * S)] [NeZero N]
    {env : EnvApi τ (B * S) N} {basePol : Fin B → TrajPolicy τ C N}
    {baseTd : Fin B → τ} {startIdx : Fin S → Fin N} {decodeType : String}
    {rng : ℕ → Fin (B * S) → ℝ} {fuel : ℕ} {ls : LoopState τ C (B * S) N}
    (h : forwardState env basePol baseTd startIdx decodeType rng fuel = Except.ok ls) :
    ∃ sa sl, sa.length = sl.length ∧
      ls.actions = initialAction startIdx :: sa ∧
      ls.logProbs = (fun _ => (0 : ℝ)) :: sl := by
  obtain ⟨sa, sl, hlen, ha, hl⟩ := rolloutLoop_trace _ _ _ _ fuel 0 _ ls h
  refine ⟨sa, sl, hlen, ?_, ?_⟩
  · rw [ha, initLoopState_actions]; rfl
  · rw [hl, initLoopState_logProbs]; rfl

theorem forwardState_nonempty {τ C : Type} {B S N : ℕ} [NeZero (B * S)] [NeZero N]
    {env : EnvApi τ (B * S) N} {basePol : Fin B → TrajPolicy τ C N}
    {baseTd : Fin B → τ} {startIdx : Fin S → Fin N} {decodeType : String}
    {rng : ℕ → Fin (B * S) → ℝ} {fuel : ℕ} {ls : LoopState τ C (B * S) N}
    (h : forwardState env basePol baseTd startIdx decodeType rng fuel = Except.ok ls) :
    ls.actions ≠ [] ∧ ls.logProbs ≠ [] ∧ ls.logProbs.length = ls.actions.length ∧
      ls.actions.head? = some (initialAction startIdx) ∧
      ls.logProbs.head? = some (fun _ => (0 : ℝ)) := by
  obtain ⟨sa, sl, hlen, ha, hl⟩ := forwardState_trace h
  rw [ha, hl]
  exact ⟨List.cons_ne_nil _ _, List.cons_ne_nil _ _, by simp [hlen], rfl, rfl⟩

theorem forward_of_state {τ C : Type} {B S N : ℕ} [NeZero (B * S)] [NeZero N]
    {env : EnvApi τ (B * S) N} {basePol : Fin B → TrajPolicy τ C N}
    {baseTd : Fin B → τ} {startIdx : Fin S → Fin N} {decodeType : String}
    {rng : ℕ → Fin (B * S) → ℝ} {fuel : ℕ} {ls : LoopState τ C (B * S) N}
    (h : forwardState env basePol baseTd startIdx decodeType rng fuel = Except.ok ls) :
    forward env basePol baseTd startIdx decodeType rng fuel =
      Except.ok { reward := ls.lastReward, logLikelihood := stackSum ls.logProbs,
                  actions := ls.actions } := by
  obtain ⟨sa, sl, hlen, ha, hl⟩ := forwardState_trace h
  rw [forward, h]
  have h1 : ls.logProbs.isEmpty = false := by rw [hl]; rfl
  have h2 : ls.actions.isEmpty = false := by rw [ha]; rfl
  simp [Except.map, h1, h2]

/-! The decoding-type branch: everything except the literal string
`"sampling"` takes the greedy arg-max path. -/

theorem loopBody_ne_sampling {τ C : Type} {M N : ℕ} [NeZero M] [NeZero N]
    (env : EnvApi τ M N) (pol : Fin M → TrajPolicy τ C N) {decodeType : String}
    (hdt : decodeType ≠ "sampling") (u u' : Fin M → ℝ) (ls : LoopState τ C M N) :
    loopBody env pol decodeType u ls = loopBody env pol "greedy" u' ls := by
  have hg : ("greedy" : String) ≠ "sampling" := by decide
  rw [loopBody, loopBody]
  simp only [selectIdx_of_ne_sampling hdt, selectIdx_of_ne_sampling hg]

theorem rolloutLoop_ne_sampling {τ C : Type} {M N : ℕ} [NeZero M] [NeZero N]
    (env : EnvApi τ M N) (pol : Fin M → TrajPolicy τ C N) {decodeType : String}
    (hdt : decodeType ≠ "sampling") (rng rng' : ℕ → Fin M → ℝ) :
    ∀ (fuel t t' : ℕ) (ls : LoopState τ C M N),
      rolloutLoop env pol decodeType rng fuel t ls =
        rolloutLoop env pol "greedy" rng' fuel t' ls := by
  intro fuel
  induction fuel with
  | zero => intro t t' ls; rfl
  | succ fuel ih =>
    intro t t' ls
    rw [rolloutLoop, rolloutLoop]
    split_ifs with hdone
    · rfl
    · rw [loopBody_ne_sampling env pol hdt (rng t) (rng' t') ls]
      cases loopBody env pol "greedy" (rng' t') ls with
      | error e => rfl
      | ok ls₁ => exact ih (t + 1) (t' + 1) ls₁

theorem forward_ne_sampling {τ C : Type} {B S N : ℕ} [NeZero (B * S)] [NeZero N]
    (env : EnvApi τ (B * S) N) (basePol : Fin B → TrajPolicy τ C N)
    (baseTd : Fin B → τ) (startIdx : Fin S → Fin N) {decodeType : String}
    (hdt : decodeType ≠ "sampling") (rng rng' : ℕ → Fin (B * S) → ℝ) (fuel : ℕ) :
    forward env basePol baseTd startIdx decodeType rng fuel =
      forward env basePol baseTd startIdx "greedy" rng' fuel := by
  rw [forward, forward, forwardState, forwardState,
    rolloutLoop_ne_sampling env (batchify S basePol) hdt rng rng' fuel 0 0]

/-! Claim C1: the phase-1 mask slice. -/

/-- C1, counterexample: the slice the code applies in phase 1,
`mask[arange, :, head]`, differs from the set of legal parents of the head
under the (child, parent) mask convention, `mask[arange, head, :]`, already
for a concrete 1-trajectory, 2-node mask whose only legal pair is
(child 0, parent 1) with head 0. -/
theorem claimC1_counterexample :
    phase1MaskSlice c1Mask c1Head ≠ specLegalParentSlice c1Mask c1Head := by
  decide

/-- C1, amended: the mask slice applied to the parent-selection scores
before the softmax in phase 1 is the transposed slice `mask[b, :, head b]` —
the entries whose parent coordinate (not whose child coordinate) is the
current head; entries outside that slice's `true` positions are set to the
large negative sentinel, and `phase1LogProbs` (the log-probabilities the
loop uses in phase 1) applies exactly this slice. -/
theorem claimC1_amended {τ C : Type} {M N : ℕ} [NeZero N]
    (mask : Fin M → Fin N → Fin N → Bool) (head : Fin M → Fin N)
    (s : Fin N → ℝ) (b : Fin M) :
    (∀ j, phase1MaskSlice mask head b j = mask b j (head b)) ∧
    (∀ j, phase1MaskSlice mask head b j = true →
      maskedFill s (phase1MaskSlice mask head b) j = s j) ∧
    (∀ j, phase1MaskSlice mask head b j = false →
      maskedFill s (phase1MaskSlice mask head b) j = negSentinel) ∧
    (∀ (env : EnvApi τ M N) (pol : Fin M → TrajPolicy τ C N)
      (td : Fin M → τ) (ctx : Fin M → C),
      phase1LogProbs env pol td ctx b =
        logSoftmax (maskedFill
          ((pol b).parentScores (ctx b) (env.trajectoryHead (td b)))
          (fun j => env.actionMask td b j (env.trajectoryHead (td b))))) :=
  ⟨fun _ => rfl, fun _ h => maskedFill_of_true h,
   fun _ h => maskedFill_of_false h, fun _ _ _ _ => rfl⟩

/-- C1, witness: the amended statement evaluated on the concrete mask of the
counterexample, at a slice position that is masked out. -/
theorem claimC1_witness :
    phase1MaskSlice c1Mask c1Head 0 0 = false ∧
    maskedFill c2ScoresCex (phase1MaskSlice c1Mask c1Head 0) 0 = negSentinel := by
  refine ⟨by decide, ?_⟩
  exact (claimC1_amended (τ := Unit) (C := Unit) c1Mask c1Head c2ScoresCex 0).2.2.1 0 (by decide)

/-! Claim C2: selected indices versus the mask. -/

/-- C2, counterexample: with the finite `-1e9` sentinel the masked-out node
keeps strictly positive probability after the softmax, so sampling can
select it even though the applied mask slice has a `true` entry: with scores
`[0, 0]`, mask `[false, true]` and a uniform draw inside the leftover mass
of node 0, the sampled index is the masked node 0. -/
theorem claimC2_counterexample :
    c2MaskCex 1 = true ∧
    c2MaskCex (selectIdx "sampling"
      (logSoftmax (maskedFill c2ScoresCex c2MaskCex)) c2Draw) = false := by
  refine ⟨rfl, ?_⟩
  have hsel : selectIdx "sampling"
      (logSoftmax (maskedFill c2ScoresCex c2MaskCex)) c2Draw = 0 := by
    rw [selectIdx, if_pos rfl]
    apply sampleCat_eq
    · have hc : catCdf
          (fun i => Real.exp (logSoftmax (maskedFill c2ScoresCex c2MaskCex) i)) 0
          = Real.exp (logSoftmax (maskedFill c2ScoresCex c2MaskCex) 0) := by
        rw [catCdf, show Finset.Iic (0 : Fin 2) = {0} from by decide,
          Finset.sum_singleton]
      rw [hc, c2Draw]
      exact half_lt_self (Real.exp_pos _)
    · intro j _
      exact Fin.zero_le j
  rw [hsel]
  rfl

/-- C2, amended: in any non-sampling mode (greedy arg-max), if some entry of
the applied mask slice is `true` and carries a raw score strictly above the
`-1e9` sentinel, the selected index always lies at a `true` position of the
slice.  (Sampling mode genuinely can select masked indices, and greedy can
when every legal raw score is at or below the sentinel.) -/
theorem claimC2_amended {N : ℕ} [NeZero N] {decodeType : String}
    (hdt : decodeType ≠ "sampling") (s : Fin N → ℝ) (m : Fin N → Bool) (u : ℝ)
    (hex : ∃ i, m i = true ∧ negSentinel < s i) :
    m (selectIdx decodeType (logSoftmax (maskedFill s m)) u) = true := by
  rw [selectIdx_of_ne_sampling hdt, argmaxIdx_logSoftmax]
  obtain ⟨i, hm, hs⟩ := hex
  obtain ⟨h1, _⟩ := argmaxIdx_spec (maskedFill s m)
  by_contra hfalse
  have hmf : m (argmaxIdx (maskedFill s m)) = false := by
    cases hmb : m (argmaxIdx (maskedFill s m)) with
    | false => rfl
    | true => exact absurd hmb hfalse
  have hle : maskedFill s m i ≤ negSentinel :=
    maskedFill_of_false hmf ▸ h1 i
  rw [maskedFill_of_true hm] at hle
  linarith

/-- C2, witness: greedy selection on scores `[0, 1]` with mask
`[false, true]` picks a legal index. -/
theorem claimC2_witness :
    (("greedy" : String) ≠ "sampling") ∧
    (∃ i, c2MaskCex i = true ∧ negSentinel < c2ScoresWit i) ∧
    c2MaskCex (selectIdx "greedy"
      (logSoftmax (maskedFill c2ScoresWit c2MaskCex)) 0) = true := by
  have h1 : ("greedy" : String) ≠ "sampling" := by decide
  have h2 : ∃ i, c2MaskCex i = true ∧ negSentinel < c2ScoresWit i := by
    refine ⟨1, rfl, ?_⟩
    norm_num [c2ScoresWit, negSentinel]
  exact ⟨h1, h2, claimC2_amended h1 c2ScoresWit c2MaskCex 0 h2⟩

/-! Claim C3: properties of the masked log-softmax. -/

/-- C3, counterexample: because the sentinel is finite, the exponentials of
the log-probabilities summed over only the unmasked nodes are strictly below
1: with scores `[0, 0]` and mask `[true, false]` the unmasked sum is
`1 / (1 + exp (-1e9)) ≠ 1`. -/
theorem claimC3_counterexample :
    ¬ (∑ i ∈ Finset.univ.filter fun i => c3Mask i = true,
        Real.exp (logSoftmax (maskedFill c3Scores c3Mask) i)) = 1 := by
  have hfilter : (Finset.univ.filter fun i => c3Mask i = true) = {0} := by decide
  have hv0 : maskedFill c3Scores c3Mask 0 = 0 := maskedFill_of_true (by decide)
  have hv1 : maskedFill c3Scores c3Mask 1 = negSentinel :=
    maskedFill_of_false (by decide)
  rw [hfilter, Finset.sum_singleton, exp_logSoftmax, Fin.sum_univ_two, hv0, hv1,
    Real.exp_zero]
  apply ne_of_lt
  rw [div_lt_one (by positivity)]
  linarith [Real.exp_pos negSentinel]

/-- C3, amended: every per-node log-probability produced by the masked
log-softmax is ≤ 0, and the exponentials of the log-probabilities sum to
exactly 1 across the full node dimension (masked nodes included, because the
sentinel is finite); over the unmasked nodes alone the sum is only ≤ 1. -/
theorem claimC3_amended {N : ℕ} [NeZero N] (s : Fin N → ℝ) (m : Fin N → Bool) :
    (∀ i, logSoftmax (maskedFill s m) i ≤ 0) ∧
    (∑ i, Real.exp (logSoftmax (maskedFill s m) i)) = 1 ∧
    (∑ i ∈ Finset.univ.filter fun i => m i = true,
      Real.exp (logSoftmax (maskedFill s m) i)) ≤ 1 := by
  refine ⟨logSoftmax_nonpos _, sum_exp_logSoftmax _, ?_⟩
  calc (∑ i ∈ Finset.univ.filter fun i => m i = true,
          Real.exp (logSoftmax (maskedFill s m) i))
      ≤ ∑ i, Real.exp (logSoftmax (maskedFill s m) i) :=
        Finset.sum_le_sum_of_subset_of_nonneg (Finset.filter_subset _ _)
          (fun i _ _ => (Real.exp_pos _).le)
    _ = 1 := sum_exp_logSoftmax _

/-- C3, witness: the amended statement evaluated on the concrete scores and
mask of the counterexample. -/
theorem claimC3_witness :
    (∀ i, logSoftmax (maskedFill c3Scores c3Mask) i ≤ 0) ∧
    (∑ i, Real.exp (logSoftmax (maskedFill c3Scores c3Mask) i)) = 1 ∧
    (∑ i ∈ Finset.univ.filter fun i => c3Mask i = true,
      Real.exp (logSoftmax (maskedFill c3Scores c3Mask) i)) ≤ 1 :=
  claimC3_amended c3Scores c3Mask

/-! Claim C4: the initial pseudo-step. -/

/-- C4: before the phase-dependent loop begins, the rollout commits exactly
one initial pseudo-step: for every trajectory it constructs the action
(externally chosen start-node index, parent-index placeholder 0), records
log-probability exactly 0 for it, and the state entering the loop is the
result of exactly one `env.step` call on that action; every successful run's
trace begins with this entry. -/
theorem claimC4_initial_step {τ C : Type} {B S N : ℕ} [NeZero (B * S)] [NeZero N]
    (env : EnvApi τ (B * S) N) (basePol : Fin B → TrajPolicy τ C N)
    (baseTd : Fin B → τ) (startIdx : Fin S → Fin N) :
    (initLoopState env basePol baseTd startIdx).actions = [initialAction startIdx] ∧
    (initLoopState env basePol baseTd startIdx).logProbs = [fun _ => (0 : ℝ)] ∧
    (∀ k, (initLoopState env basePol baseTd startIdx).lastAction k =
      (startIdx (startOf k), (0 : Fin N))) ∧
    (initLoopState env basePol baseTd startIdx).td =
      (env.step (batchify S baseTd) (initialAction startIdx)).1 ∧
    (initLoopState env basePol baseTd startIdx).lastReward =
      (env.step (batchify S baseTd) (initialAction startIdx)).2 ∧
    (∀ decodeType rng fuel ls,
      forwardState env basePol baseTd startIdx decodeType rng fuel = Except.ok ls →
      ls.actions.head? = some (initialAction startIdx) ∧
      ls.logProbs.head? = some (fun _ => (0 : ℝ))) := by
  refine ⟨rfl, rfl, fun k => rfl, rfl, rfl, ?_⟩
  intro decodeType rng fuel ls h
  obtain ⟨-, -, -, h4, h5⟩ := forwardState_nonempty h
  exact ⟨h4, h5⟩

/-- C4, witness: the initial pseudo-step facts on a concrete immediately-done
environment. -/
theorem claimC4_witness :
    forwardState trivEnv trivPol trivTd trivStart "greedy" trivRng 3 =
      Except.ok (initLoopState trivEnv trivPol trivTd trivStart) ∧
    (initLoopState trivEnv trivPol trivTd trivStart).actions.head? =
      some (initialAction trivStart) := by
  have hdone : ∀ k : Fin (1 * 1),
      trivEnv.done ((initLoopState trivEnv trivPol trivTd trivStart).td k) = true :=
    fun _ => rfl
  have hfs : forwardState trivEnv trivPol trivTd trivStart "greedy" trivRng 3 =
      Except.ok (initLoopState trivEnv trivPol trivTd trivStart) := by
    rw [forwardState, rolloutLoop, if_pos hdone]
  exact ⟨hfs, ((claimC4_initial_step trivEnv trivPol trivTd trivStart).2.2.2.2.2
    "greedy" trivRng 3 _ hfs).1⟩

/-! Claim C5: multi-start replication. -/

/-- C5: replication for multi-start rollouts.  Every per-trajectory object —
the state rows, the per-trajectory policy closures (node embeddings), the
initial context and the committed start action — is indexed by
`Fin (B * S)` (leading dimension `B × S`), each replica `k` carries the data
of original instance `instanceIdx k` and start slot `startOf k`, and the
returned record's action trace starts with the aligned replicated start
action.  `batchify` is modelled from the spec since
`common/utils/common.py` is not among the sources. -/
theorem claimC5_replication {τ C : Type} {B S N : ℕ} [NeZero (B * S)] [NeZero N]
    (env : EnvApi τ (B * S) N) (basePol : Fin B → TrajPolicy τ C N)
    (baseTd : Fin B → τ) (startIdx : Fin S → Fin N) (k : Fin (B * S)) :
    batchify S baseTd k = baseTd (instanceIdx k) ∧
    batchify S basePol k = basePol (instanceIdx k) ∧
    (initLoopState env basePol baseTd startIdx).context k =
      (basePol (instanceIdx k)).initCtx ∧
    (initLoopState env basePol baseTd startIdx).lastAction k =
      (startIdx (startOf k), (0 : Fin N)) ∧
    (∀ decodeType rng fuel res,
      forward env basePol baseTd startIdx decodeType rng fuel = Except.ok res →
      res.actions.head? = some (initialAction startIdx)) := by
  refine ⟨rfl, rfl, rfl, rfl, ?_⟩
  intro decodeType rng fuel res h
  cases hfs : forwardState env basePol baseTd startIdx decodeType rng fuel with
  | error e => rw [forward, hfs] at h; cases h
  | ok ls =>
    rw [forward_of_state hfs] at h
    obtain ⟨-, -, -, h4, -⟩ := forwardState_nonempty hfs
    rw [← Except.ok.inj h]
    exact h4

/-- C5, witness: the replication facts and the returned record on the
concrete immediately-done environment. -/
theorem claimC5_witness :
    forward trivEnv trivPol trivTd trivStart "greedy" trivRng 4 =
      Except.ok trivResult ∧
    trivResult.actions.head? = some (initialAction trivStart) := by
  have hdone : ∀ k : Fin (1 * 1),
      trivEnv.done ((initLoopState trivEnv trivPol trivTd trivStart).td k) = true :=
    fun _ => rfl
  have hfs : forwardState trivEnv trivPol trivTd trivStart "greedy" trivRng 4 =
      Except.ok (initLoopState trivEnv trivPol trivTd trivStart) := by
    rw [forwardState, rolloutLoop, if_pos hdone]
  have hfw : forward trivEnv trivPol trivTd trivStart "greedy" trivRng 4 =
      Except.ok trivResult := forward_of_state hfs
  exact ⟨hfw, (claimC5_replication trivEnv trivPol trivTd trivStart 0).2.2.2.2
    "greedy" trivRng 4 trivResult hfw⟩

/-! Claim C6: log-likelihood is the sum of the recorded log-probabilities. -/

/-- C6: for every completed rollout, the returned `log_likelihood` is the
per-trajectory sum of all per-step log-probability rows recorded during the
rollout — whose first entry is the zero row of the initial pseudo-step. -/
theorem claimC6_loglik {τ C : Type} {B S N : ℕ} [NeZero (B * S)] [NeZero N]
    (env : EnvApi τ (B * S) N) (basePol : Fin B → TrajPolicy τ C N)
    (baseTd : Fin B → τ) (startIdx : Fin S → Fin N)
    (decodeType : String) (rng : ℕ → Fin (B * S) → ℝ) (fuel : ℕ)
    (ls : LoopState τ C (B * S) N)
    (h : forwardState env basePol baseTd startIdx decodeType rng fuel = Except.ok ls) :
    forward env basePol baseTd startIdx decodeType rng fuel =
      Except.ok { reward := ls.lastReward, logLikelihood := stackSum ls.logProbs,
                  actions := ls.actions } ∧
    ls.logProbs.head? = some (fun _ => (0 : ℝ)) :=
  ⟨forward_of_state h, (forwardState_nonempty h).2.2.2.2⟩

/-- C6, witness: the log-likelihood equation on the concrete immediately-done
environment. -/
theorem claimC6_witness :
    forwardState trivEnv trivPol trivTd trivStart "greedy" trivRng 5 =
      Except.ok (initLoopState trivEnv trivPol trivTd trivStart) ∧
    forward trivEnv trivPol trivTd trivStart "greedy" trivRng 5 =
      Except.ok { reward := (initLoopState trivEnv trivPol trivTd trivStart).lastReward
                  logLikelihood :=
                    stackSum (initLoopState trivEnv trivPol trivTd trivStart).logProbs
                  actions := (initLoopState trivEnv trivPol trivTd trivStart).actions } := by
  have hdone : ∀ k : Fin (1 * 1),
      trivEnv.done ((initLoopState trivEnv trivPol trivTd trivStart).td k) = true :=
    fun _ => rfl
  have hfs : forwardState trivEnv trivPol trivTd trivStart "greedy" trivRng 5 =
      Except.ok (initLoopState trivEnv trivPol trivTd trivStart) := by
    rw [forwardState, rolloutLoop, if_pos hdone]
  exact ⟨hfs, (claimC6_loglik trivEnv trivPol trivTd trivStart "greedy" trivRng 5
    _ hfs).1⟩

/-! Claim C7: greedy decoding is deterministic. -/

/-- C7: with `decode_type = "greedy"` the forward pass is independent of the
stream of uniform draws — the only run-to-run varying input — so two runs on
identical inputs yield identical action sequences, rewards and
log-likelihoods. -/
theorem claimC7_greedy_deterministic {τ C : Type} {B S N : ℕ}
    [NeZero (B * S)] [NeZero N]
    (env : EnvApi τ (B * S) N) (basePol : Fin B → TrajPolicy τ C N)
    (baseTd : Fin B → τ) (startIdx : Fin S → Fin N)
    (rng rng' : ℕ → Fin (B * S) → ℝ) (fuel : ℕ) :
    forward env basePol baseTd startIdx "greedy" rng fuel =
      forward env basePol baseTd startIdx "greedy" rng' fuel :=
  forward_ne_sampling env basePol baseTd startIdx (by decide) rng rng' fuel

/-- C7, witness: determinism instantiated on the concrete environment with
two different draw streams. -/
theorem claimC7_witness :
    forward trivEnv trivPol trivTd trivStart "greedy" trivRng 6 =
      forward trivEnv trivPol trivTd trivStart "greedy" trivRng2 6 :=
  claimC7_greedy_deterministic trivEnv trivPol trivTd trivStart trivRng trivRng2 6

/-! Claim C8: the phase dispatch is not exhaustive. -/

/-- C8: if the environment reports a decoding phase other than 0 and 1 for
trajectory 0, no new action or log-probability is computed for that
iteration: with no previously assigned `log_prob_val` (first loop iteration)
the body fails with the undefined-variable error, and otherwise the previous
iteration's action and log-probability are silently re-submitted to
`env.step` and re-recorded in the trace. -/
theorem claimC8_phase_dispatch {τ C : Type} {M N : ℕ} [NeZero M] [NeZero N]
    (env : EnvApi τ M N) (pol : Fin M → TrajPolicy τ C N) (decodeType : String)
    (u : Fin M → ℝ) (ls : LoopState τ C M N)
    (h0 : env.decodingPhase (ls.td 0) ≠ 0) (h1 : env.decodingPhase (ls.td 0) ≠ 1) :
    (ls.lastLogProb = none →
      loopBody env pol decodeType u ls = Except.error RolloutErr.nameErr) ∧
    (∀ lp, ls.lastLogProb = some lp →
      loopBody env pol decodeType u ls = Except.ok
        { td := (env.step ls.td ls.lastAction).1
          context := fun b => (pol b).gru (ls.lastAction b) (ls.context b)
          lastAction := ls.lastAction
          lastLogProb := some lp
          actions := ls.actions ++ [ls.lastAction]
          logProbs := ls.logProbs ++ [lp]
          lastReward := (env.step ls.td ls.lastAction).2 }) := by
  constructor
  · intro hn
    simp only [loopBody, if_neg h0, if_neg h1, hn]
  · intro lp hs
    simp only [loopBody, if_neg h0, if_neg h1, hs]
    rfl

/-- C8, witness: on a concrete environment reporting phase 2, the first loop
iteration (no `log_prob_val` assigned yet) raises the error. -/
theorem claimC8_witness :
    phase2Env.decodingPhase
      ((initLoopState phase2Env trivPol trivTd trivStart).td 0) = 2 ∧
    (initLoopState phase2Env trivPol trivTd trivStart).lastLogProb = none ∧
    loopBody phase2Env (batchify 1 trivPol) "greedy" (trivRng 0)
      (initLoopState phase2Env trivPol trivTd trivStart) =
      Except.error RolloutErr.nameErr := by
  refine ⟨rfl, rfl, ?_⟩
  exact (claimC8_phase_dispatch phase2Env (batchify 1 trivPol) "greedy" (trivRng 0)
    (initLoopState phase2Env trivPol trivTd trivStart) (by decide) (by decide)).1 rfl

/-! Claim C9: every decode type other than "sampling" is greedy. -/

/-- C9: for every decode-type string other than `"sampling"` — including
misspellings and arbitrary values — selection is the greedy arg-max in both
phases, and the whole forward pass behaves exactly as with `"greedy"`; no
error is raised for an unrecognized decode type. -/
theorem claimC9_default_greedy {τ C : Type} {B S N : ℕ} [NeZero (B * S)] [NeZero N]
    (env : EnvApi τ (B * S) N) (basePol : Fin B → TrajPolicy τ C N)
    (baseTd : Fin B → τ) (startIdx : Fin S → Fin N) {decodeType : String}
    (hdt : decodeType ≠ "sampling") (rng : ℕ → Fin (B * S) → ℝ) (fuel : ℕ) :
    (∀ (n : ℕ) (inst : NeZero n) (logp : Fin n → ℝ) (u : ℝ),
      @selectIdx n inst decodeType logp u = @argmaxIdx n inst logp) ∧
    forward env basePol baseTd startIdx decodeType rng fuel =
      forward env basePol baseTd startIdx "greedy" rng fuel := by
  constructor
  · intro n inst logp u
    exact @selectIdx_of_ne_sampling n inst decodeType hdt logp u
  · exact forward_ne_sampling env basePol baseTd startIdx hdt rng rng fuel

/-- C9, witness: the misspelled decode type `"gredy"` behaves exactly like
`"greedy"` on the concrete environment. -/
theorem claimC9_witness :
    ("gredy" : String) ≠ "sampling" ∧
    forward trivEnv trivPol trivTd trivStart "gredy" trivRng 7 =
      forward trivEnv trivPol trivTd trivStart "greedy" trivRng 7 := by
  have h : ("gredy" : String) ≠ "sampling" := by decide
  exact ⟨h, (claimC9_default_greedy trivEnv trivPol trivTd trivStart h trivRng 7).2⟩

/-! Claim C10: the trace is never empty and the fallbacks are unreachable. -/

/-- C10: every run that reaches the return statement has a non-empty action
trace and a log-probability trace of equal length (so the empty-sequence
fallback branches of the returned record are not taken), and if the
environment reports all trajectories done immediately after the start step
the result has exactly one recorded action and log-likelihood exactly 0. -/
theorem claimC10_trace_invariants {τ C : Type} {B S N : ℕ}
    [NeZero (B * S)] [NeZero N]
    (env : EnvApi τ (B * S) N) (basePol : Fin B → TrajPolicy τ C N)
    (baseTd : Fin B → τ) (startIdx : Fin S → Fin N)
    (decodeType : String) (rng : ℕ → Fin (B * S) → ℝ) (fuel : ℕ)
    (ls : LoopState τ C (B * S) N)
    (h : forwardState env basePol baseTd startIdx decodeType rng fuel = Except.ok ls) :
    ls.actions ≠ [] ∧ ls.logProbs ≠ [] ∧
    ls.logProbs.length = ls.actions.length ∧
    forward env basePol baseTd startIdx decodeType rng fuel =
      Except.ok { reward := ls.lastReward, logLikelihood := stackSum ls.logProbs,
                  actions := ls.actions } ∧
    ((∀ k, env.done ((initLoopState env basePol baseTd startIdx).td k) = true) →
      ls.actions.length = 1 ∧ stackSum ls.logProbs = fun _ => 0) := by
  obtain ⟨hne1, hne2, hlen, -, -⟩ := forwardState_nonempty h
  refine ⟨hne1, hne2, hlen, forward_of_state h, ?_⟩
  intro hdone
  have hls : ls = initLoopState env basePol baseTd startIdx := by
    rw [forwardState] at h
    cases fuel with
    | zero =>
      rw [rolloutLoop, if_pos hdone] at h
      exact (Except.ok.inj h).symm
    | succ fuel =>
      rw [rolloutLoop, if_pos hdone] at h
      exact (Except.ok.inj h).symm
  constructor
  · rw [hls, initLoopState_actions]
    rfl
  · funext k
    rw [hls, initLoopState_logProbs]
    simp [stackSum]

/-- C10, witness: the invariants on the concrete immediately-done
environment, where the loop exits at once even with zero fuel. -/
theorem claimC10_witness :
    forwardState trivEnv trivPol trivTd trivStart "greedy" trivRng 0 =
      Except.ok (initLoopState trivEnv trivPol trivTd trivStart) ∧
    ((initLoopState trivEnv trivPol trivTd trivStart).actions ≠ [] ∧
     (initLoopState trivEnv trivPol trivTd trivStart).logProbs ≠ [] ∧
     (initLoopState trivEnv trivPol trivTd trivStart).logProbs.length =
       (initLoopState trivEnv trivPol trivTd trivStart).actions.length ∧
     forward trivEnv trivPol trivTd trivStart "greedy" trivRng 0 =
       Except.ok { reward := (initLoopState trivEnv trivPol trivTd trivStart).lastReward
                   logLikelihood :=
                     stackSum (initLoopState trivEnv trivPol trivTd trivStart).logProbs
                   actions := (initLoopState trivEnv trivPol trivTd trivStart).actions } ∧
     ((∀ k, trivEnv.done
         ((initLoopState trivEnv trivPol trivTd trivStart).td k) = true) →
       (initLoopState trivEnv trivPol trivTd trivStart).actions.length = 1 ∧
       stackSum (initLoopState trivEnv trivPol trivTd trivStart).logProbs =
         fun _ => 0)) := by
  have hdone : ∀ k : Fin (1 * 1),
      trivEnv.done ((initLoopState trivEnv trivPol trivTd trivStart).td k) = true :=
    fun _ => rfl
  have hfs : forwardState trivEnv trivPol trivTd trivStart "greedy" trivRng 0 =
      Except.ok (initLoopState trivEnv trivPol trivTd trivStart) := by
    rw [forwardState, rolloutLoop, if_pos hdone]
  exact ⟨hfs, claimC10_trace_invariants trivEnv trivPol trivTd trivStart
    "greedy" trivRng 0 _ hfs⟩
